import Mathlib

/-!
Verification of the MonsGeek HID driver core (src/monsgeek_hid.py): the
report-diffing translator (`process_hid_report`), the event sink
(`emit_events`), the disconnect-time full release (`release_all_keys`)
and the run loop's write-error handling.

Modelling conventions:
- A serialized `input_event` struct is modelled by the `Event` inductive:
  `make_key_event keycode value` for EV_KEY events and `SYN_EVENT` for the
  pre-packed SYN_REPORT terminator.  `emit_events` returns the list of
  primitive writes it performs, each write being the list of serialized
  events of its payload.
- A Python `set` of scancodes becomes a duplicate-free `List ℕ`; set
  difference becomes `setDiff` (filtering), and iterating a set becomes
  iterating the list in its stored order.  Python's set iteration order is
  an implementation detail; no claim below depends on the order of events
  inside one loop of the source, only on the concatenation order of the
  loops, so this determinization is harmless.
- Byte strings become `List ℕ`; `data[0]` under the length-8 guard becomes
  `data.getD 0 0`, and `set(data[2:8]) - {0}` becomes `setOfSlots`.
- The `OSError` raised by `os.write` is modelled by threading an optional
  errno through `emit_events_w` / `process_hid_report_w` as `Except ℕ`.
-/

namespace MonsGeek

/-- A serialized input event: either an EV_KEY event carrying a Linux
keycode and a value (1 = press, 0 = release), or the SYN_REPORT marker. -/
inductive Event where
  | key (keycode : Nat) (value : Nat)
  | syn
deriving DecidableEq, Repr

/-- The pre-packed SYN_REPORT event (`SYN_EVENT` in the source). -/
def SYN_EVENT : Event := Event.syn

/-- `make_key_event(keycode, value)` from the source: packs an EV_KEY event. -/
def make_key_event (keycode value : Nat) : Event := Event.key keycode value

/-- `HID_TO_LINUX` from the source: HID scancode to Linux keycode mapping,
as an association list in the order the dictionary is written. -/
def HID_TO_LINUX : List (Nat × Nat) := [
  (0x04, 30), (0x05, 48), (0x06, 46), (0x07, 32), (0x08, 18), (0x09, 33),
  (0x0a, 34), (0x0b, 35), (0x0c, 23), (0x0d, 36), (0x0e, 37), (0x0f, 38),
  (0x10, 50), (0x11, 49), (0x12, 24), (0x13, 25), (0x14, 16), (0x15, 19),
  (0x16, 31), (0x17, 20), (0x18, 22), (0x19, 47), (0x1a, 17), (0x1b, 45),
  (0x1c, 21), (0x1d, 44), (0x1e, 2), (0x1f, 3), (0x20, 4), (0x21, 5),
  (0x22, 6), (0x23, 7), (0x24, 8), (0x25, 9), (0x26, 10), (0x27, 11),
  (0x28, 28), (0x29, 1), (0x2a, 14), (0x2b, 15), (0x2c, 57), (0x2d, 12),
  (0x2e, 13), (0x2f, 26), (0x30, 27), (0x31, 43), (0x32, 43), (0x33, 39),
  (0x34, 40), (0x35, 41), (0x36, 51), (0x37, 52), (0x38, 53), (0x39, 58),
  (0x3a, 59), (0x3b, 60), (0x3c, 61), (0x3d, 62), (0x3e, 63), (0x3f, 64),
  (0x40, 65), (0x41, 66), (0x42, 67), (0x43, 68), (0x44, 87), (0x45, 88),
  (0x46, 99), (0x47, 70), (0x48, 119), (0x49, 110), (0x4a, 102), (0x4b, 104),
  (0x4c, 111), (0x4d, 107), (0x4e, 109), (0x4f, 106), (0x50, 105), (0x51, 108),
  (0x52, 103), (0x53, 69), (0x54, 98), (0x55, 55), (0x56, 74), (0x57, 78),
  (0x58, 96), (0x59, 79), (0x5a, 80), (0x5b, 81), (0x5c, 75), (0x5d, 76),
  (0x5e, 77), (0x5f, 71), (0x60, 72), (0x61, 73), (0x62, 82), (0x63, 83),
  (0x64, 86), (0x65, 127), (0x66, 116), (0x67, 117)]

/-- `MODIFIER_MAP` from the source: modifier bit positions to Linux
keycodes, in the fixed order bit 0 .. bit 7. -/
def MODIFIER_MAP : List (Nat × Nat) :=
  [(0, 29), (1, 42), (2, 56), (3, 125), (4, 97), (5, 54), (6, 100), (7, 126)]

/-- The key state owned by the lifecycle manager: the fields
`self.prev_modifiers` and `self.prev_keys` of `MonsGeekHID`.  `prev_keys`
is a Python set, modelled as a duplicate-free list. -/
structure KeyState where
  prev_modifiers : Nat
  prev_keys : List Nat
deriving DecidableEq, Repr

/-- The state set up by `__init__`: `prev_modifiers = 0`, `prev_keys = set()`. -/
def initState : KeyState := ⟨0, []⟩

/-- The state reset performed on the success path of `connect_hidraw`:
`self.prev_modifiers = 0; self.prev_keys = set()`. -/
def connect_hidraw_reset : KeyState := ⟨0, []⟩

/-- Python set difference `s1 - s2` on the list model. -/
def setDiff (s1 s2 : List Nat) : List Nat :=
  s1.filter fun c => c ∉ s2

/-- `set(data[2:8]) - {0}`: the set of nonzero scancodes in slots 2-7,
as a duplicate-free list. -/
def setOfSlots (data : List Nat) : List Nat :=
  ((data.drop 2).take 6).dedup.filter fun c => c ≠ 0

/-- The modifier-change loop of `process_hid_report`: for each
`(bit, keycode)` of `MODIFIER_MAP` in order, emit an event with the new
value when the bit differs between the previous and the new bitmask. -/
def modifierEvents (prev modifiers : Nat) : List Event :=
  MODIFIER_MAP.filterMap fun p =>
    let was_pressed := (prev >>> p.1) &&& 1
    let is_pressed := (modifiers >>> p.1) &&& 1
    if was_pressed ≠ is_pressed then some (make_key_event p.2 is_pressed)
    else none

/-- A scancode loop of `process_hid_report` / `release_all_keys`: for each
scancode of the set, emit an event with the given value when the scancode
is in `HID_TO_LINUX`, and nothing otherwise. -/
def scanEvents (s : List Nat) (value : Nat) : List Event :=
  s.filterMap fun c =>
    (HID_TO_LINUX.lookup c).map fun kc => make_key_event kc value

/-- The scancodes of a set that actually generate an event when iterated:
those present in `HID_TO_LINUX`, in iteration order.  `scanEvents s v`
emits exactly one event per element of this list. -/
def emittedScancodes (s : List Nat) : List Nat :=
  s.filter fun c => (HID_TO_LINUX.lookup c).isSome

/-- `emit_events` from the source, as the list of primitive writes it
performs: no write when `events` is empty, otherwise one single write whose
payload is all events followed by the SYN_REPORT marker. -/
def emit_events (events : List Event) : List (List Event) :=
  if events = [] then [] else [events ++ [SYN_EVENT]]

/-- The pure translator inside `process_hid_report` (lines 218-237 plus the
state update of lines 242-243): modifier changes, then releases
(`prev_keys - keys`), then presses (`keys - prev_keys`), and the new state
`⟨modifiers, keys⟩`. -/
def translate (st : KeyState) (data : List Nat) : List Event × KeyState :=
  let modifiers := data.getD 0 0
  let keys := setOfSlots data
  let events :=
    modifierEvents st.prev_modifiers modifiers
      ++ scanEvents (setDiff st.prev_keys keys) 0
      ++ scanEvents (setDiff keys st.prev_keys) 1
  (events, ⟨modifiers, keys⟩)

/-- `process_hid_report` from the source: drop reports shorter than 8
bytes, otherwise translate and emit.  Returns the new key state and the
list of primitive writes performed. -/
def process_hid_report (st : KeyState) (data : List Nat) :
    KeyState × List (List Event) :=
  if data.length < 8 then (st, [])
  else
    let r := translate st data
    (r.2, emit_events r.1)

/-- The modifier loop of `release_all_keys`: one release event per
`(bit, keycode)` of `MODIFIER_MAP` whose bit is asserted in the bitmask. -/
def modReleaseEvents (mods : Nat) : List Event :=
  MODIFIER_MAP.filterMap fun p =>
    if (mods >>> p.1) &&& 1 ≠ 0 then some (make_key_event p.2 0) else none

/-- The events built by `release_all_keys`: a release for every tracked
scancode present in `HID_TO_LINUX`, then a release for every asserted
modifier bit. -/
def releaseAllEvents (st : KeyState) : List Event :=
  scanEvents st.prev_keys 0 ++ modReleaseEvents st.prev_modifiers

/-- `release_all_keys` from the source: emit the full-release events and
clear the key state.  Returns the new key state and the writes performed. -/
def release_all_keys (st : KeyState) : KeyState × List (List Event) :=
  (⟨0, []⟩, emit_events (releaseAllEvents st))

/-- `emit_events` with the outcome of the single `os.write` made explicit:
`writeError = some e` means the write raises `OSError` with errno `e`,
which propagates to the caller. -/
def emit_events_w (events : List Event) (writeError : Option Nat) :
    Except Nat (List (List Event)) :=
  if events = [] then Except.ok []
  else
    match writeError with
    | none => Except.ok [events ++ [SYN_EVENT]]
    | some e => Except.error e

/-- `process_hid_report` with the write outcome made explicit: a raising
write aborts the call before the state update of lines 242-243, and the
errno propagates to the run loop. -/
def process_hid_report_w (st : KeyState) (data : List Nat)
    (writeError : Option Nat) :
    Except Nat (KeyState × List (List Event)) :=
  if data.length < 8 then Except.ok (st, [])
  else
    let r := translate st data
    match emit_events_w r.1 writeError with
    | Except.ok ws => Except.ok (r.2, ws)
    | Except.error e => Except.error e

/-- The `except OSError` handler of the run loop (lines 309-314): errno 19
(ENODEV) drives a disconnect, errno 11 (EAGAIN) is ignored, and every other
errno is re-raised, which terminates the process. -/
def write_error_is_fatal (errno : Nat) : Bool :=
  if errno = 19 then false
  else if errno ≠ 11 then true
  else false

/-- Per-scancode count of press events generated by one `process_hid_report`
step: the number of press events whose originating scancode is `c`. -/
def stepPressFor (st : KeyState) (data : List Nat) (c : Nat) : Nat :=
  if data.length < 8 then 0
  else (emittedScancodes (setDiff (setOfSlots data) st.prev_keys)).count c

/-- Per-scancode count of release events generated by one
`process_hid_report` step. -/
def stepReleaseFor (st : KeyState) (data : List Nat) (c : Nat) : Nat :=
  if data.length < 8 then 0
  else (emittedScancodes (setDiff st.prev_keys (setOfSlots data))).count c

/-- Run a sequence of reports from the initial empty state, accumulating
the running press and release counts for scancode `c`. -/
def runCounts (c : Nat) (rs : List (List Nat)) : KeyState × Nat × Nat :=
  rs.foldl
    (fun acc data =>
      ((process_hid_report acc.1 data).1,
        acc.2.1 + stepPressFor acc.1 data c,
        acc.2.2 + stepReleaseFor acc.1 data c))
    (initState, 0, 0)

/-- The pressed set of the most recent report of a sequence (empty when no
report has been processed). -/
def lastPressedSet (rs : List (List Nat)) : List Nat :=
  match rs.getLast? with
  | none => []
  | some d => setOfSlots d

/-! ### Basic lemmas about the embedded operations -/

/-- Each scancode loop emits exactly one event, with the mapped keycode, per
element of `emittedScancodes`. -/
theorem scanEvents_eq_map (s : List Nat) (v : Nat) :
    scanEvents s v
      = (emittedScancodes s).map fun c =>
          make_key_event ((HID_TO_LINUX.lookup c).getD 0) v := by
  unfold scanEvents emittedScancodes
  induction s with
  | nil => rfl
  | cons a l ih =>
    cases h : HID_TO_LINUX.lookup a <;>
      simp [List.filterMap_cons, List.filter_cons, h, ih]

/-- On a duplicate-free set, a scancode generates exactly one event when it
is in the set and in the scancode map, and none otherwise. -/
theorem count_emittedScancodes (s : List Nat) (hnd : s.Nodup) (c : Nat) :
    (emittedScancodes s).count c
      = if c ∈ s ∧ (HID_TO_LINUX.lookup c).isSome then 1 else 0 := by
  unfold emittedScancodes
  by_cases hc : c ∈ s ∧ (HID_TO_LINUX.lookup c).isSome
  · rw [if_pos hc]
    exact List.count_eq_one_of_mem (hnd.filter _) (List.mem_filter.mpr ⟨hc.1, hc.2⟩)
  · rw [if_neg hc, List.count_eq_zero]
    intro hmem
    rcases List.mem_filter.mp hmem with ⟨h1, h2⟩
    exact hc ⟨h1, h2⟩

theorem mem_setDiff {c : Nat} {s1 s2 : List Nat} :
    c ∈ setDiff s1 s2 ↔ c ∈ s1 ∧ c ∉ s2 := by
  simp [setDiff]

theorem setDiff_nodup {s1 s2 : List Nat} (h : s1.Nodup) :
    (setDiff s1 s2).Nodup := h.filter _

theorem setDiff_self (s : List Nat) : setDiff s s = [] := by
  unfold setDiff
  rw [List.filter_eq_nil_iff]
  intro a ha
  simp [ha]

theorem setOfSlots_nodup (data : List Nat) : (setOfSlots data).Nodup :=
  (List.nodup_dedup _).filter _

theorem mem_setOfSlots {c : Nat} {data : List Nat} :
    c ∈ setOfSlots data ↔ c ∈ (data.drop 2).take 6 ∧ c ≠ 0 := by
  simp [setOfSlots, List.mem_dedup]

/-- No modifier change event is generated when the bitmask is unchanged. -/
theorem modifierEvents_self (m : Nat) : modifierEvents m m = [] := by
  unfold modifierEvents
  rw [List.filterMap_eq_nil_iff]
  intro p _
  simp

/-- On a well-formed report, the state stored by `process_hid_report` is
the parsed modifier byte together with the parsed slot set. -/
theorem process_hid_report_fst (st : KeyState) (data : List Nat)
    (h : 8 ≤ data.length) :
    (process_hid_report st data).1 = ⟨data.getD 0 0, setOfSlots data⟩ := by
  unfold process_hid_report
  rw [if_neg (Nat.not_lt.mpr h)]
  rfl

/-! ### Claims -/

/-- Claim C6: for every key state and every report shorter than 8 bytes,
processing the report leaves the key state completely unchanged and
performs no write. -/
theorem malformed_report_dropped (st : KeyState) (data : List Nat)
    (h : data.length < 8) :
    process_hid_report st data = (st, []) := by
  unfold process_hid_report
  rw [if_pos h]

theorem malformed_report_dropped_witness :
    ([1, 2, 3] : List Nat).length < 8
      ∧ process_hid_report initState [1, 2, 3] = (initState, []) :=
  ⟨by decide, malformed_report_dropped initState [1, 2, 3] (by decide)⟩

/-- Claim C5: `emit_events` performs zero writes on an empty event list,
and on a non-empty list exactly one write whose payload is the events
followed by exactly one SYN_REPORT marker. -/
theorem emit_events_write_discipline (events : List Event)
    (hne : events ≠ []) :
    emit_events [] = ([] : List (List Event))
    ∧ emit_events events = [events ++ [SYN_EVENT]]
    ∧ (emit_events events).length = 1
    ∧ ((∀ e ∈ events, e ≠ SYN_EVENT) →
        ∀ w ∈ emit_events events, w.count SYN_EVENT = 1) := by
  refine ⟨rfl, by simp [emit_events, hne], by simp [emit_events, hne], ?_⟩
  intro hkey w hw
  simp only [emit_events, if_neg hne, List.mem_singleton] at hw
  subst hw
  rw [List.count_append, List.count_eq_zero.mpr (fun hmem => (hkey _ hmem) rfl)]
  simp

theorem emit_events_write_discipline_witness :
    emit_events [] = ([] : List (List Event))
    ∧ emit_events [make_key_event 30 1] = [[make_key_event 30 1] ++ [SYN_EVENT]]
    ∧ (emit_events [make_key_event 30 1]).length = 1
    ∧ ((∀ e ∈ [make_key_event 30 1], e ≠ SYN_EVENT) →
        ∀ w ∈ emit_events [make_key_event 30 1], w.count SYN_EVENT = 1) :=
  emit_events_write_discipline [make_key_event 30 1] (by decide)

/-- Claim C9: translating the same well-formed report twice in a row is
idempotent: the second call emits no events, performs no write, and leaves
the key state unchanged. -/
theorem process_idempotent (st : KeyState) (data : List Nat)
    (h : 8 ≤ data.length) :
    process_hid_report ((process_hid_report st data).1) data
      = ((process_hid_report st data).1, []) := by
  rw [process_hid_report_fst st data h]
  unfold process_hid_report
  rw [if_neg (Nat.not_lt.mpr h)]
  simp [translate, modifierEvents_self, setDiff_self, scanEvents, emit_events]

theorem process_idempotent_witness :
    8 ≤ ([1, 0, 4, 0, 0, 0, 0, 0] : List Nat).length
    ∧ process_hid_report ((process_hid_report initState [1, 0, 4, 0, 0, 0, 0, 0]).1)
        [1, 0, 4, 0, 0, 0, 0, 0]
      = ((process_hid_report initState [1, 0, 4, 0, 0, 0, 0, 0]).1, []) :=
  ⟨by decide, process_idempotent initState [1, 0, 4, 0, 0, 0, 0, 0] (by decide)⟩

/-- Claim C10: two well-formed reports that agree on the modifier byte and
on the scancode slots produce identical events, writes and states; the
reserved byte 1, bytes past index 7 and duplicate slot entries have no
influence (the slot agreement may be taken either bytewise or as equality
of the parsed slot sets). -/
theorem report_byte_agreement (st : KeyState) (d1 d2 : List Nat)
    (h1 : 8 ≤ d1.length) (h2 : 8 ≤ d2.length)
    (hmod : d1.getD 0 0 = d2.getD 0 0)
    (hslots : (d1.drop 2).take 6 = (d2.drop 2).take 6
      ∨ setOfSlots d1 = setOfSlots d2) :
    process_hid_report st d1 = process_hid_report st d2 := by
  have hset : setOfSlots d1 = setOfSlots d2 := by
    rcases hslots with h | h
    · unfold setOfSlots
      rw [h]
    · exact h
  unfold process_hid_report
  rw [if_neg (Nat.not_lt.mpr h1), if_neg (Nat.not_lt.mpr h2)]
  simp only [translate]
  rw [hmod, hset]

theorem report_byte_agreement_witness :
    8 ≤ ([0, 7, 4, 4, 0, 0, 0, 0, 9] : List Nat).length
    ∧ 8 ≤ ([0, 0, 4, 0, 0, 0, 0, 0] : List Nat).length
    ∧ process_hid_report initState [0, 7, 4, 4, 0, 0, 0, 0, 9]
        = process_hid_report initState [0, 0, 4, 0, 0, 0, 0, 0] :=
  ⟨by decide, by decide,
    report_byte_agreement initState [0, 7, 4, 4, 0, 0, 0, 0, 9]
      [0, 0, 4, 0, 0, 0, 0, 0] (by decide) (by decide) (by decide)
      (Or.inr (by decide))⟩

/-- Claim C3: the translator's output is the concatenation of modifier
change events (built in the fixed bit order of `MODIFIER_MAP`), then
release events for scancodes leaving the pressed set, then press events
for scancodes entering it; in particular a release of scancode A always
precedes a press of scancode B emitted in the same transition. -/
theorem translate_event_order (st : KeyState) (data : List Nat)
    (_h : 8 ≤ data.length) :
    (translate st data).1
      = modifierEvents st.prev_modifiers (data.getD 0 0)
        ++ scanEvents (setDiff st.prev_keys (setOfSlots data)) 0
        ++ scanEvents (setDiff (setOfSlots data) st.prev_keys) 1
    ∧ (∀ A B kA kB : Nat,
        A ∈ st.prev_keys → A ∉ setOfSlots data →
        B ∈ setOfSlots data → B ∉ st.prev_keys →
        HID_TO_LINUX.lookup A = some kA →
        HID_TO_LINUX.lookup B = some kB →
        ∃ pre mid post : List Event,
          (translate st data).1
            = pre ++ make_key_event kA 0 :: (mid ++ make_key_event kB 1 :: post)) := by
  constructor
  · rfl
  · intro A B kA kB hA1 hA2 hB1 hB2 hkA hkB
    have hmemA : make_key_event kA 0
        ∈ scanEvents (setDiff st.prev_keys (setOfSlots data)) 0 := by
      unfold scanEvents
      refine List.mem_filterMap.mpr ⟨A, mem_setDiff.mpr ⟨hA1, hA2⟩, ?_⟩
      rw [hkA]
      rfl
    have hmemB : make_key_event kB 1
        ∈ scanEvents (setDiff (setOfSlots data) st.prev_keys) 1 := by
      unfold scanEvents
      refine List.mem_filterMap.mpr ⟨B, mem_setDiff.mpr ⟨hB1, hB2⟩, ?_⟩
      rw [hkB]
      rfl
    rcases List.append_of_mem hmemA with ⟨r1, r2, hR⟩
    rcases List.append_of_mem hmemB with ⟨p1, p2, hP⟩
    refine ⟨modifierEvents st.prev_modifiers (data.getD 0 0) ++ r1,
      r2 ++ p1, p2, ?_⟩
    have hsplit : (translate st data).1
        = modifierEvents st.prev_modifiers (data.getD 0 0)
          ++ scanEvents (setDiff st.prev_keys (setOfSlots data)) 0
          ++ scanEvents (setDiff (setOfSlots data) st.prev_keys) 1 := rfl
    rw [hsplit, hR, hP]
    simp

theorem translate_event_order_witness :
    8 ≤ ([0, 0, 5, 0, 0, 0, 0, 0] : List Nat).length
    ∧ (∃ pre mid post : List Event,
        (translate ⟨0, [4]⟩ [0, 0, 5, 0, 0, 0, 0, 0]).1
          = pre ++ make_key_event 30 0 :: (mid ++ make_key_event 48 1 :: post)) :=
  ⟨by decide,
    (translate_event_order ⟨0, [4]⟩ [0, 0, 5, 0, 0, 0, 0, 0] (by decide)).2
      4 5 30 48 (by decide) (by decide) (by decide) (by decide)
      (by decide) (by decide)⟩

/-- The parsed slot set of any report holds at most six scancodes: it comes
from deduplicating and filtering at most six bytes. -/
theorem setOfSlots_length_le (data : List Nat) :
    (setOfSlots data).length ≤ 6 :=
  calc (setOfSlots data).length
      ≤ ((data.drop 2).take 6).dedup.length := List.length_filter_le _ _
    _ ≤ ((data.drop 2).take 6).length := (List.dedup_sublist _).length_le
    _ ≤ 6 := by rw [List.length_take]; exact min_le_left _ _

/-- Claim C7: the pressed set never holds more than six scancodes: it is
empty in the initial state and after every connect reset, and both report
processing and the full release keep its size at most six. -/
theorem pressed_at_most_six (st : KeyState) (data : List Nat)
    (h : st.prev_keys.length ≤ 6) :
    initState.prev_keys.length ≤ 6
    ∧ connect_hidraw_reset.prev_keys.length ≤ 6
    ∧ ((process_hid_report st data).1).prev_keys.length ≤ 6
    ∧ ((release_all_keys st).1).prev_keys.length ≤ 6 := by
  refine ⟨by decide, by decide, ?_, Nat.zero_le 6⟩
  by_cases hlen : data.length < 8
  · unfold process_hid_report
    rw [if_pos hlen]
    exact h
  · rw [process_hid_report_fst st data (Nat.not_lt.mp hlen)]
    exact setOfSlots_length_le data

theorem pressed_at_most_six_witness :
    ([4] : List Nat).length ≤ 6
    ∧ (initState.prev_keys.length ≤ 6
      ∧ connect_hidraw_reset.prev_keys.length ≤ 6
      ∧ ((process_hid_report ⟨0, [4]⟩ [0, 0, 4, 5, 0, 0, 0, 0, 7]).1).prev_keys.length ≤ 6
      ∧ ((release_all_keys ⟨0, [4]⟩).1).prev_keys.length ≤ 6) :=
  ⟨by decide, pressed_at_most_six ⟨0, [4]⟩ [0, 0, 4, 5, 0, 0, 0, 0, 7] (by decide)⟩

/-- Claim C8: a scancode absent from the scancode map is tracked in the
pressed set and diffed exactly like a mapped one, but it never generates
an emitted event: not among the releases, not among the presses, and not
in the disconnect full release. -/
theorem unmapped_scancode_tracked_silent (st : KeyState) (data : List Nat)
    (c : Nat) (hlen : 8 ≤ data.length)
    (hun : HID_TO_LINUX.lookup c = none) :
    ((process_hid_report st data).1).prev_keys = setOfSlots data
    ∧ (c ∈ ((process_hid_report st data).1).prev_keys
        ↔ c ∈ (data.drop 2).take 6 ∧ c ≠ 0)
    ∧ (c ∈ st.prev_keys → c ∉ setOfSlots data →
        c ∈ setDiff st.prev_keys (setOfSlots data))
    ∧ c ∉ emittedScancodes (setDiff st.prev_keys (setOfSlots data))
    ∧ c ∉ emittedScancodes (setDiff (setOfSlots data) st.prev_keys)
    ∧ c ∉ emittedScancodes st.prev_keys := by
  rw [process_hid_report_fst st data hlen]
  refine ⟨rfl, mem_setOfSlots, fun h1 h2 => mem_setDiff.mpr ⟨h1, h2⟩,
    ?_, ?_, ?_⟩ <;>
  · intro hmem
    unfold emittedScancodes at hmem
    rcases List.mem_filter.mp hmem with ⟨-, h2⟩
    rw [hun] at h2
    simp at h2

theorem unmapped_scancode_tracked_silent_witness :
    8 ≤ ([0, 0, 2, 0, 0, 0, 0, 0] : List Nat).length
    ∧ HID_TO_LINUX.lookup 2 = none
    ∧ (((process_hid_report ⟨0, [1]⟩ [0, 0, 2, 0, 0, 0, 0, 0]).1).prev_keys
          = setOfSlots [0, 0, 2, 0, 0, 0, 0, 0]
      ∧ (2 ∈ ((process_hid_report ⟨0, [1]⟩ [0, 0, 2, 0, 0, 0, 0, 0]).1).prev_keys
          ↔ 2 ∈ (([0, 0, 2, 0, 0, 0, 0, 0] : List Nat).drop 2).take 6 ∧ (2 : Nat) ≠ 0)
      ∧ ((2 : Nat) ∈ [1] → 2 ∉ setOfSlots [0, 0, 2, 0, 0, 0, 0, 0] →
          2 ∈ setDiff [1] (setOfSlots [0, 0, 2, 0, 0, 0, 0, 0]))
      ∧ 2 ∉ emittedScancodes (setDiff [1] (setOfSlots [0, 0, 2, 0, 0, 0, 0, 0]))
      ∧ 2 ∉ emittedScancodes (setDiff (setOfSlots [0, 0, 2, 0, 0, 0, 0, 0]) [1])
      ∧ 2 ∉ emittedScancodes [1]) :=
  ⟨by decide, by decide,
    unmapped_scancode_tracked_silent ⟨0, [1]⟩ [0, 0, 2, 0, 0, 0, 0, 0] 2
      (by decide) (by decide)⟩

/-- Claim C4 (amended): a failing write inside report processing aborts the
call before the state update and is reported to the run loop as the raised
errno; the loop's handler is non-fatal only for errno 19 (ENODEV, drives a
disconnect) and errno 11 (EAGAIN, ignored) and re-raises every other
errno, which terminates the process. -/
theorem write_error_reported (st : KeyState) (data : List Nat) (e : Nat)
    (hlen : 8 ≤ data.length) (hne : (translate st data).1 ≠ []) :
    process_hid_report_w st data (some e) = Except.error e
    ∧ (write_error_is_fatal e = false ↔ (e = 19 ∨ e = 11)) := by
  constructor
  · simp [process_hid_report_w, emit_events_w, Nat.not_lt.mpr hlen, hne]
  · by_cases h19 : e = 19 <;> by_cases h11 : e = 11 <;>
      simp [write_error_is_fatal, h19, h11]

theorem write_error_reported_witness :
    8 ≤ ([0, 0, 4, 0, 0, 0, 0, 0] : List Nat).length
    ∧ (translate initState [0, 0, 4, 0, 0, 0, 0, 0]).1 ≠ []
    ∧ (process_hid_report_w initState [0, 0, 4, 0, 0, 0, 0, 0] (some 19)
          = Except.error 19
      ∧ (write_error_is_fatal 19 = false ↔ ((19 : Nat) = 19 ∨ (19 : Nat) = 11))) :=
  ⟨by decide, by decide,
    write_error_reported initState [0, 0, 4, 0, 0, 0, 0, 0] 19
      (by decide) (by decide)⟩

/-- Claim C4 counterexample: a write failure with errno 5 (EIO) reaches the
run loop and its handler re-raises it, so this write error terminates the
process, contradicting the claim that no write error does. -/
theorem write_error_fatal_counterexample :
    write_error_is_fatal 5 = true
    ∧ process_hid_report_w initState [0, 0, 4, 0, 0, 0, 0, 0] (some 5)
        = Except.error 5 :=
  ⟨by decide, by rfl⟩

/-- No modifier release event carries a keycode that does not occur among
the keycodes of the iterated pairs. -/
theorem count_modFilterMap_zero (l : List (Nat × Nat)) (m kc : Nat)
    (h : kc ∉ l.map Prod.snd) :
    ((l.filterMap fun p =>
        if (m >>> p.1) &&& 1 ≠ 0 then some (make_key_event p.2 0)
        else none).count (make_key_event kc 0)) = 0 := by
  induction l with
  | nil => rfl
  | cons p l ih =>
    have hne : p.2 ≠ kc := fun hEq => h (by simp [hEq])
    have htail : kc ∉ l.map Prod.snd := fun hm => h (by simp [hm])
    rw [List.filterMap_cons]
    by_cases hb : (m >>> p.1) &&& 1 ≠ 0
    · rw [if_pos hb, List.count_cons, ih htail]
      simp [make_key_event, hne]
    · rw [if_neg hb]
      exact ih htail

/-- When the iterated pairs carry pairwise distinct keycodes, the modifier
loop emits the release event of a listed pair exactly once when its bit is
asserted, and never otherwise. -/
theorem count_modFilterMap (l : List (Nat × Nat)) (m b kc : Nat)
    (hmem : (b, kc) ∈ l) (hnd : (l.map Prod.snd).Nodup) :
    ((l.filterMap fun p =>
        if (m >>> p.1) &&& 1 ≠ 0 then some (make_key_event p.2 0)
        else none).count (make_key_event kc 0))
      = if (m >>> b) &&& 1 = 0 then 0 else 1 := by
  induction l with
  | nil => cases hmem
  | cons p l ih =>
    rw [List.map_cons, List.nodup_cons] at hnd
    rcases List.mem_cons.mp hmem with hEq | hTail
    · cases hEq.symm
      rw [List.filterMap_cons]
      by_cases hb : (m >>> b) &&& 1 ≠ 0
      · rw [if_pos hb, List.count_cons,
          count_modFilterMap_zero l m kc hnd.1, if_neg hb]
        simp
      · rw [if_neg hb, count_modFilterMap_zero l m kc hnd.1,
          if_pos (not_not.mp hb)]
    · have hpkc : p.2 ≠ kc := fun hEq2 =>
        hnd.1 (hEq2 ▸ List.mem_map.mpr ⟨(b, kc), hTail, rfl⟩)
      rw [List.filterMap_cons]
      by_cases hb : (m >>> p.1) &&& 1 ≠ 0
      · rw [if_pos hb, List.count_cons, ih hTail hnd.2]
        simp [make_key_event, hpkc]
      · rw [if_neg hb]
        exact ih hTail hnd.2

/-- Claim C2: the disconnect-time full release, from any key state, builds
one release event per tracked scancode present in the scancode map (exactly
once each) and one per asserted modifier bit (exactly once each), flushes
them through the sink as its only writes, and clears the key state; when
nothing is pressed it builds no events and performs no write. -/
theorem release_all_keys_spec (st : KeyState) (hnd : st.prev_keys.Nodup) :
    release_all_keys st = (⟨0, []⟩, emit_events (releaseAllEvents st))
    ∧ releaseAllEvents st
        = scanEvents st.prev_keys 0 ++ modReleaseEvents st.prev_modifiers
    ∧ scanEvents st.prev_keys 0
        = (emittedScancodes st.prev_keys).map
            (fun c => make_key_event ((HID_TO_LINUX.lookup c).getD 0) 0)
    ∧ (∀ c : Nat, (emittedScancodes st.prev_keys).count c
        = if c ∈ st.prev_keys ∧ (HID_TO_LINUX.lookup c).isSome
          then 1 else 0)
    ∧ (∀ b kc : Nat, (b, kc) ∈ MODIFIER_MAP →
        (modReleaseEvents st.prev_modifiers).count (make_key_event kc 0)
          = if (st.prev_modifiers >>> b) &&& 1 = 0 then 0 else 1)
    ∧ (st.prev_keys = [] →
        (∀ b kc : Nat, (b, kc) ∈ MODIFIER_MAP →
          (st.prev_modifiers >>> b) &&& 1 = 0) →
        releaseAllEvents st = [] ∧ release_all_keys st = (⟨0, []⟩, [])) := by
  refine ⟨rfl, rfl, scanEvents_eq_map _ _, count_emittedScancodes _ hnd,
    fun b kc hmem =>
      count_modFilterMap MODIFIER_MAP st.prev_modifiers b kc hmem (by decide),
    ?_⟩
  intro hkeys hmods
  have hmrel : modReleaseEvents st.prev_modifiers = [] := by
    unfold modReleaseEvents
    rw [List.filterMap_eq_nil_iff]
    intro p hp
    rw [if_neg (not_not.mpr (hmods p.1 p.2 hp))]
  have hall : releaseAllEvents st = [] := by
    unfold releaseAllEvents
    rw [hkeys, hmrel]
    rfl
  exact ⟨hall, by unfold release_all_keys; rw [hall]; simp [emit_events]⟩

theorem release_all_keys_spec_witness :
    release_all_keys ⟨2, [26]⟩ = (⟨0, []⟩, emit_events (releaseAllEvents ⟨2, [26]⟩))
    ∧ releaseAllEvents ⟨2, [26]⟩ = scanEvents [26] 0 ++ modReleaseEvents 2
    ∧ scanEvents [26] 0
        = (emittedScancodes [26]).map
            (fun c => make_key_event ((HID_TO_LINUX.lookup c).getD 0) 0)
    ∧ (∀ c : Nat, (emittedScancodes [26]).count c
        = if c ∈ [26] ∧ (HID_TO_LINUX.lookup c).isSome then 1 else 0)
    ∧ (∀ b kc : Nat, (b, kc) ∈ MODIFIER_MAP →
        (modReleaseEvents 2).count (make_key_event kc 0)
          = if ((2 : Nat) >>> b) &&& 1 = 0 then 0 else 1)
    ∧ (([26] : List Nat) = [] →
        (∀ b kc : Nat, (b, kc) ∈ MODIFIER_MAP →
          ((2 : Nat) >>> b) &&& 1 = 0) →
        releaseAllEvents ⟨2, [26]⟩ = []
        ∧ release_all_keys ⟨2, [26]⟩ = (⟨0, []⟩, [])) :=
  release_all_keys_spec ⟨2, [26]⟩ (by decide)

/-- One well-formed report changes the per-scancode press/release balance
by the difference of the indicator of the new pressed set and the indicator
of the previous pressed set (both restricted to mapped scancodes). -/
theorem step_diff (st : KeyState) (data : List Nat) (c : Nat)
    (h : 8 ≤ data.length) (hnd : st.prev_keys.Nodup) :
    (stepPressFor st data c : Int) - (stepReleaseFor st data c : Int)
      = (if c ∈ setOfSlots data ∧ (HID_TO_LINUX.lookup c).isSome
          then (1 : Int) else 0)
        - (if c ∈ st.prev_keys ∧ (HID_TO_LINUX.lookup c).isSome
          then (1 : Int) else 0) := by
  unfold stepPressFor stepReleaseFor
  rw [if_neg (Nat.not_lt.mpr h), if_neg (Nat.not_lt.mpr h),
    count_emittedScancodes _ (setDiff_nodup (setOfSlots_nodup data)) c,
    count_emittedScancodes _ (setDiff_nodup hnd) c]
  by_cases h1 : c ∈ setOfSlots data <;> by_cases h2 : c ∈ st.prev_keys <;>
    by_cases h3 : (HID_TO_LINUX.lookup c).isSome <;>
      simp [mem_setDiff, h1, h2, h3]

/-- Unfolding one step of `runCounts` at the end of the report sequence. -/
theorem runCounts_append (c : Nat) (rs : List (List Nat)) (d : List Nat) :
    runCounts c (rs ++ [d])
      = ((process_hid_report (runCounts c rs).1 d).1,
          (runCounts c rs).2.1 + stepPressFor (runCounts c rs).1 d c,
          (runCounts c rs).2.2 + stepReleaseFor (runCounts c rs).1 d c) := by
  unfold runCounts
  rw [List.foldl_append]
  rfl

/-- Invariant of the running counts over any sequence of well-formed
reports: the stored pressed set is the last report's pressed set, it is
duplicate-free, and the press/release balance for a scancode is the
indicator of its (mapped) membership in that set. -/
theorem runCounts_invariant (c : Nat) (rs : List (List Nat))
    (h : ∀ r ∈ rs, 8 ≤ r.length) :
    (runCounts c rs).1.prev_keys = lastPressedSet rs
    ∧ (runCounts c rs).1.prev_keys.Nodup
    ∧ ((runCounts c rs).2.1 : Int) - ((runCounts c rs).2.2 : Int)
        = (if c ∈ lastPressedSet rs ∧ (HID_TO_LINUX.lookup c).isSome
          then (1 : Int) else 0) := by
  induction rs using List.reverseRecOn with
  | nil =>
    refine ⟨rfl, List.nodup_nil, ?_⟩
    simp [runCounts, lastPressedSet]
  | append_singleton rs d ih =>
    have hd : 8 ≤ d.length := h d (by simp)
    have hrs : ∀ r ∈ rs, 8 ≤ r.length := fun r hr => h r (by simp [hr])
    obtain ⟨hkeys, hnd, hdiff⟩ := ih hrs
    have hlast : lastPressedSet (rs ++ [d]) = setOfSlots d := by
      unfold lastPressedSet
      rw [List.getLast?_concat]
    rw [runCounts_append, hlast]
    refine ⟨?_, ?_, ?_⟩
    · rw [process_hid_report_fst _ d hd]
    · rw [process_hid_report_fst _ d hd]
      exact setOfSlots_nodup d
    · have hstep := step_diff (runCounts c rs).1 d c hd hnd
      rw [hkeys] at hstep
      have hsplit :
          (((runCounts c rs).2.1 + stepPressFor (runCounts c rs).1 d c : Nat) : Int)
            - (((runCounts c rs).2.2 + stepReleaseFor (runCounts c rs).1 d c : Nat) : Int)
          = (((runCounts c rs).2.1 : Int) - ((runCounts c rs).2.2 : Int))
            + ((stepPressFor (runCounts c rs).1 d c : Int)
              - (stepReleaseFor (runCounts c rs).1 d c : Int)) := by
        push_cast
        ring
      rw [hsplit, hdiff, hstep]
      ring

/-- Claim C1 (amended): over any sequence of well-formed reports processed
from the initial empty state, the running count of press events emitted for
a scancode minus the running count of release events emitted for it is 1
when the scancode is in the most recent report's pressed set AND present in
the scancode map, and 0 otherwise. -/
theorem press_release_balance (c : Nat) (rs : List (List Nat))
    (h : ∀ r ∈ rs, 8 ≤ r.length) :
    ((runCounts c rs).2.1 : Int) - ((runCounts c rs).2.2 : Int)
      = (if c ∈ lastPressedSet rs ∧ (HID_TO_LINUX.lookup c).isSome
        then (1 : Int) else 0) :=
  (runCounts_invariant c rs h).2.2

theorem press_release_balance_witness :
    (∀ r ∈ [[0, 0, 4, 0, 0, 0, 0, 0], [0, 0, 5, 0, 0, 0, 0, 0]], 8 ≤ List.length r)
    ∧ ((runCounts 4 [[0, 0, 4, 0, 0, 0, 0, 0], [0, 0, 5, 0, 0, 0, 0, 0]]).2.1 : Int)
        - ((runCounts 4 [[0, 0, 4, 0, 0, 0, 0, 0], [0, 0, 5, 0, 0, 0, 0, 0]]).2.2 : Int)
      = (if 4 ∈ lastPressedSet [[0, 0, 4, 0, 0, 0, 0, 0], [0, 0, 5, 0, 0, 0, 0, 0]]
            ∧ (HID_TO_LINUX.lookup 4).isSome
        then (1 : Int) else 0) :=
  ⟨by decide,
    press_release_balance 4 [[0, 0, 4, 0, 0, 0, 0, 0], [0, 0, 5, 0, 0, 0, 0, 0]]
      (by decide)⟩

/-- Claim C1 counterexample: the report `[0,0,1,0,0,0,0,0]` presses
scancode 1, which is nonzero (hence in the pressed set) but absent from the
scancode map, so no press event is ever emitted for it: the running balance
is 0 although the claim requires 1. -/
theorem press_release_balance_counterexample :
    ¬ (((runCounts 1 [[0, 0, 1, 0, 0, 0, 0, 0]]).2.1 : Int)
        - ((runCounts 1 [[0, 0, 1, 0, 0, 0, 0, 0]]).2.2 : Int)
      = (if 1 ∈ lastPressedSet [[0, 0, 1, 0, 0, 0, 0, 0]]
        then (1 : Int) else 0)) := by
  decide

end MonsGeek
